import Mathlib

/-!
Verification of the dryer KPI pipeline (repository `dryer-kpi-dashboard`).

The development shallowly embeds the core functions of
`dryer_kpi_monthly_final.py`, `simple_optimizer.py` and
`build_optimization_database.py`:
timestamps and durations are rationals (hours), pandas `NaT`/`NaN` and
missing columns are `Option.none`, dataframes are lists of records, and
each Python function becomes an executable Lean definition that follows
the source line by line.
-/

namespace DryerKPI

/-- The five dryer zones (CONFIG["zones_seq"] in the source). -/
inductive Zone
  | Z1
  | Z2
  | Z3
  | Z4
  | Z5
deriving DecidableEq, Repr

open Zone

/-- CONFIG["zones_seq"] = ["Z1", "Z2", "Z3", "Z4", "Z5"]. -/
def zonesSeq : List Zone := [Z1, Z2, Z3, Z4, Z5]

/-!
## Interval builder (`build_intervals`, dryer_kpi_monthly_final.py 239-267)

`build_intervals` reads, from a wagon row, the fields `t0`, `{zone}_in`
and `{zone}_dur` (the latter two via `row.get(..., pd.NaT)`, so a missing
column behaves like a null value).  We model the part of the row it reads
as three optional-valued components.
-/

/-- The fields of a wagon row that `build_intervals` reads: the dryer
start `t0` and, per zone, the optional entry timestamp `{zone}_in` and
optional duration `{zone}_dur` (none = NaT / missing column). -/
structure WagonRow where
  t0 : Option ℚ
  zoneEntry : Zone → Option ℚ
  zoneDur : Zone → Option ℚ

/-- Lines 253-257: the effective entry time of a zone — the recorded
timestamp when present, else the `prev_end` variable when set (Python
`None` = `Option.none`), else `row["t0"]`. -/
def entryTime (row : WagonRow) (z : Zone) (prevEnd : Option ℚ) : Option ℚ :=
  match row.zoneEntry z with
  | some t => some t
  | none =>
    match prevEnd with
    | some p => some p
    | none => row.t0

/-- The loop of `build_intervals` over the remaining zones, carrying the
`prev_end` variable: exit is entry + duration when both are known; a
triple is emitted, and `prev_end` advanced, only when entry and exit are
known and exit is strictly later (lines 259-265). -/
def buildIntervalsAux (row : WagonRow) : List Zone → Option ℚ → List (Zone × ℚ × ℚ)
  | [], _ => []
  | z :: rest, prevEnd =>
    match entryTime row z prevEnd, row.zoneDur z with
    | some tin, some dur =>
      if tin < tin + dur then
        (z, tin, tin + dur) :: buildIntervalsAux row rest (some (tin + dur))
      else
        buildIntervalsAux row rest prevEnd
    | some _, none => buildIntervalsAux row rest prevEnd
    | none, _ => buildIntervalsAux row rest prevEnd

/-- Function `build_intervals(row)` (dryer_kpi_monthly_final.py 239-267). -/
def buildIntervals (row : WagonRow) : List (Zone × ℚ × ℚ) :=
  buildIntervalsAux row zonesSeq none

/-- Every emitted interval has strictly positive duration. -/
def allPositive (l : List (Zone × ℚ × ℚ)) : Bool :=
  l.all (fun iv => decide (iv.2.1 < iv.2.2))

/-- Consecutive emitted intervals do not overlap: each interval starts no
earlier than the end of the previously emitted one. -/
def nonOverlapping : List (Zone × ℚ × ℚ) → Bool
  | [] => true
  | [_] => true
  | a :: b :: rest => decide (a.2.2 ≤ b.2.1) && nonOverlapping (b :: rest)

/-- Helper invariant for the chained case: the first emitted interval
starts no earlier than the carried previous end, and the list chains. -/
def chainedFrom : Option ℚ → List (Zone × ℚ × ℚ) → Prop
  | _, [] => True
  | none, iv :: rest => chainedFrom (some iv.2.2) rest
  | some p, iv :: rest => p ≤ iv.2.1 ∧ chainedFrom (some iv.2.2) rest

/-!
## `parse_wagon`'s final column drop (dryer_kpi_monthly_final.py 227-232)

For the claims about the parse_wagon → build_intervals interface we also
model a dataframe row concretely, as an association list from column
names to values, with `row.get` semantics (`none` for a missing column).
-/

/-- A dataframe row: column name ↦ value. -/
abbrev Row := List (String × ℚ)

/-- Lookup `row.get(col, NaT)` / `row[col]`: first binding of the column, none
when the column is absent. -/
def rowGet (r : Row) (c : String) : Option ℚ :=
  (r.find? (fun p => decide (p.1 = c))).map Prod.snd

/-- Column drop `df.drop(columns=...)`: remove the listed columns. -/
def dropCols (r : Row) (cs : List String) : Row :=
  r.filter (fun p => !(decide (p.1 ∈ cs)))

/-- The `cols_to_drop` list of `parse_wagon` (dryer_kpi_monthly_final.py 228-231). -/
def colsToDrop : List String :=
  ["Z2_in", "Z3_in", "Z4_in", "Z5_in", "Z1_in",
   "Z5_dur_calc", "Z1_dur", "Z2_dur", "Z3_dur", "Z4_dur", "Z5_dur"]

/-- The final statement of `parse_wagon` (line 232): whatever columns the
intermediate dataframe holds, the listed ones are dropped before the
dataframe is returned. -/
def parseWagonDrop (r : Row) : Row :=
  dropCols r colsToDrop

/-- The `{zone}_in` column name read by `build_intervals`. -/
def zoneEntryCol : Zone → String
  | Z1 => "Z1_in"
  | Z2 => "Z2_in"
  | Z3 => "Z3_in"
  | Z4 => "Z4_in"
  | Z5 => "Z5_in"

/-- The `{zone}_dur` column name read by `build_intervals`. -/
def zoneDurCol : Zone → String
  | Z1 => "Z1_dur"
  | Z2 => "Z2_dur"
  | Z3 => "Z3_dur"
  | Z4 => "Z4_dur"
  | Z5 => "Z5_dur"

/-- The fields `build_intervals` reads from a concrete dataframe row. -/
def rowToWagon (r : Row) : WagonRow where
  t0 := rowGet r "t0"
  zoneEntry := fun z => rowGet r (zoneEntryCol z)
  zoneDur := fun z => rowGet r (zoneDurCol z)

/-- The builder `build_intervals` applied to a concrete dataframe row. -/
def buildIntervalsRow (r : Row) : List (Zone × ℚ × ℚ) :=
  buildIntervals (rowToWagon r)

/-- Function `explode_intervals` (dryer_kpi_monthly_final.py 270-301): one output
row per interval of each wagon row, pairing the source row with the
interval data. -/
def explodeIntervals (df : List Row) : List (Row × Zone × ℚ × ℚ) :=
  df.flatMap (fun r => (buildIntervalsRow r).map (fun iv => (r, iv)))

/-!
## Energy allocation (`allocate_energy`, dryer_kpi_monthly_final.py 304-384)

`parse_energy` (lines 114-119) gives every reading the window
`E_start = Zeitstempel`, `E_end = Zeitstempel + 1 hour`.  The zones that
carry gas energy are the keys of `ZONE_ENERGY_MAPPING` (lines 36-41):
Z2..Z5; `E_{zone}_kWh` may be NaN, modelled as `none`.
-/

/-- The zones of `ZONE_ENERGY_MAPPING`, in its insertion order. -/
def mappedZones : List Zone := [Z2, Z3, Z4, Z5]

/-- One parsed hourly energy row: window `[eStart, eEnd)` (in hours) and
the per-zone energy value `E_{zone}_kWh` (none = NaN / absent column). -/
structure EnergyReading where
  eStart : ℚ
  eEnd : ℚ
  month : ℤ
  energy : Zone → Option ℚ

/-- The window built by `parse_energy` lines 115-116: start at the
timestamp, end exactly one hour later. -/
def parseEnergyWindow (timestamp : ℚ) : ℚ × ℚ :=
  (timestamp, timestamp + 1)

/-- One exploded zone-interval row (output schema of `explode_intervals`
restricted to the fields `allocate_energy` uses). -/
structure IntervalRow where
  produkt : String
  m3 : Option ℚ
  zone : Zone
  pStart : ℚ
  pEnd : ℚ
  month : ℤ
deriving DecidableEq, Repr

/-- One allocation output row (`Month_e`, `Produkt`, `m3`,
`Energy_share_kWh`, `overlap_h`, `Zone`). -/
structure AllocRow where
  month : ℤ
  produkt : String
  m3 : Option ℚ
  energyShare : ℚ
  overlapH : ℚ
  zone : Zone
deriving DecidableEq, Repr

/-- The filter of line 326: the zone's energy value is not NaN and is
strictly positive. -/
def posEnergy (z : Zone) (e : EnergyReading) : Bool :=
  match e.energy z with
  | some v => decide (0 < v)
  | none => false

/-- Lines 351-355: overlap in hours, clipped below at 0. -/
def overlapHours (e : EnergyReading) (iv : IntervalRow) : ℚ :=
  max 0 (min e.eEnd iv.pEnd - max e.eStart iv.pStart)

/-- One iteration of the zone loop of `allocate_energy` (lines 318-373):
filter the readings with positive zone energy and the intervals of the
zone, cross-join them, keep the pairs whose ranges strictly overlap
(lines 342-345), compute the clipped overlap, keep positive overlaps
(line 358), and build the output rows with
`Energy_share_kWh = E_{zone}_kWh * overlap_h` (line 364). -/
def allocateZone (z : Zone) (es : List EnergyReading) (ivs : List IntervalRow) :
    List AllocRow :=
  let eZone := es.filter (posEnergy z)
  let ivalsZone := ivs.filter (fun iv => decide (iv.zone = z))
  let merged := eZone.flatMap (fun e => ivalsZone.map (fun iv => (e, iv)))
  let merged2 := merged.filter
    (fun p => decide (p.1.eStart < p.2.pEnd) && decide (p.2.pStart < p.1.eEnd))
  let merged3 := merged2.filter (fun p => decide (0 < overlapHours p.1 p.2))
  merged3.map (fun p =>
    { month := p.1.month
      produkt := p.2.produkt
      m3 := p.2.m3
      energyShare := ((p.1.energy z).getD 0) * overlapHours p.1 p.2
      overlapH := overlapHours p.1 p.2
      zone := z })

/-- Function `allocate_energy(e, ivals)` (dryer_kpi_monthly_final.py 304-384):
the concatenation of the per-zone results over `ZONE_ENERGY_MAPPING`. -/
def allocateEnergy (es : List EnergyReading) (ivs : List IntervalRow) :
    List AllocRow :=
  mappedZones.flatMap (fun z => allocateZone z es ivs)

/-!
## Aggregation (`main`, dryer_kpi_monthly_final.py 420-434)

`groupby` + `agg(sum)` + `Energy_kWh / Volume_m3.replace(0, nan)`.
Pandas sums skip NaN (an all-NaN group sums to 0), and dividing by NaN
yields NaN; NaN results are modelled as `none`.
-/

/-- One row of the monthly summary sheet. -/
structure SummaryRow where
  month : ℤ
  produkt : String
  zone : Zone
  energyKwh : ℚ
  volumeM3 : ℚ
  kwhPerM3 : Option ℚ
deriving DecidableEq, Repr

/-- One row of the yearly summary sheet (grouped on product and zone). -/
structure YearlyRow where
  produkt : String
  zone : Zone
  energyKwh : ℚ
  volumeM3 : ℚ
  kwhPerM3 : Option ℚ
deriving DecidableEq, Repr

/-- Pandas `Series.replace(0, np.nan)` on a volume sum. -/
def replaceZeroWithNa (v : ℚ) : Option ℚ :=
  if v = 0 then none else some v

/-- Line 426 / 434: the ratio column; dividing by the NaN left by
`replace(0, nan)` propagates NaN. -/
def derivedKpi (e v : ℚ) : Option ℚ :=
  (replaceZeroWithNa v).map (fun vv => e / vv)

/-- Grouping `alloc.groupby(["Month", "Produkt", "Zone"]).agg(sum)` followed by the
ratio column (lines 422-426): one row per distinct key, summing
`Energy_share_kWh` and `m3` (NaN volumes skipped, as pandas does). -/
def monthlySummary (l : List AllocRow) : List SummaryRow :=
  ((l.map (fun r => (r.month, r.produkt, r.zone))).dedup).map (fun k =>
    let grp := l.filter (fun r => decide ((r.month, r.produkt, r.zone) = k))
    let e := (grp.map (fun r => r.energyShare)).sum
    let v := (grp.filterMap (fun r => r.m3)).sum
    { month := k.1, produkt := k.2.1, zone := k.2.2,
      energyKwh := e, volumeM3 := v, kwhPerM3 := derivedKpi e v })

/-- Grouping `summary.groupby(["Produkt", "Zone"]).agg(sum)` followed by the ratio
column (lines 430-434). -/
def yearlySummary (ms : List SummaryRow) : List YearlyRow :=
  ((ms.map (fun r => (r.produkt, r.zone))).dedup).map (fun k =>
    let grp := ms.filter (fun r => decide ((r.produkt, r.zone) = k))
    let e := (grp.map (fun r => r.energyKwh)).sum
    let v := (grp.map (fun r => r.volumeM3)).sum
    { produkt := k.1, zone := k.2,
      energyKwh := e, volumeM3 := v, kwhPerM3 := derivedKpi e v })

/-!
## Production-sequence optimizer (`simple_optimizer.py`)

The optimizer's state is the loaded database: the product profile table
(only the membership test and the `thickness_mm` field are consulted on
the paths below) and the transition matrix, modelled as a total cost
function over product names.
-/

/-- The loaded optimization database: profile table (product name with
its `thickness_mm`) and the transition matrix. -/
structure OptDb where
  profiles : List (String × ℚ)
  trans : String → String → ℚ

/-- Method `_calculate_sequence_cost` (simple_optimizer.py 143-152): sum of the
transition costs of consecutive pairs, 0 for fewer than two items. -/
def sequenceCost (db : OptDb) : List String → ℚ
  | a :: b :: rest => db.trans a b + sequenceCost db (b :: rest)
  | _ => 0

/-- One iteration of the loop of `_exhaustive_search` (lines 80-84),
carrying `(best_seq, best_cost)`; `best_cost` starts at infinity,
modelled by `none`, which every finite cost beats. -/
def searchStep (db : OptDb) (acc : Option (List String) × Option ℚ)
    (perm : List String) : Option (List String) × Option ℚ :=
  let cost := sequenceCost db perm
  match acc.2 with
  | none => (some perm, some cost)
  | some c => if cost < c then (some perm, some cost) else acc

/-- Method `_exhaustive_search` (simple_optimizer.py 75-86): fold the comparison
loop over all permutations of the products. -/
def exhaustiveSearch (db : OptDb) (products : List String) :
    Option (List String) × Option ℚ :=
  products.permutations.foldl (searchStep db) (none, none)

/-- Look up a product's `thickness_mm` in the profile table (`0` is never
reached on the paths the claims exercise, where the product is known). -/
def thickOf (db : OptDb) (p : String) : ℚ :=
  ((db.profiles.find? (fun q => decide (q.1 = p))).map Prod.snd).getD 0

/-- Python `min(xs, key=f)` over a nonempty collection: the first element
attaining the minimal key. -/
def minByKey (f : String → ℚ) : List String → Option String
  | [] => none
  | x :: xs =>
    match minByKey f xs with
    | none => some x
    | some y => if f y < f x then some y else some x

/-- Minimum of a nonempty list of costs (the lookahead `min(...)`). -/
def listMin : List ℚ → Option ℚ
  | [] => none
  | x :: xs =>
    match listMin xs with
    | none => some x
    | some m => some (min x m)

/-- The candidate score of `_intelligent_sequence` (lines 103-112):
immediate transition cost plus, when more than one product remains,
0.3 times the cheapest onward transition. -/
def lookScore (db : OptDb) (remaining : List String) (current cand : String) : ℚ :=
  db.trans current cand +
    (if 1 < remaining.length then
      ((listMin ((remaining.erase cand).map (db.trans cand))).getD 0) * (3 / 10)
    else 0)

/-- The greedy loop of `_intelligent_sequence` (lines 99-119); the fuel
equals the number of remaining products, so the loop runs to exhaustion
exactly as the Python `while remaining` does.  (Python iterates a set,
whose order is unspecified; here the list order breaks ties.) -/
def greedyLoop (db : OptDb) : Nat → String → List String → List String
  | 0, _, _ => []
  | _ + 1, _, [] => []
  | fuel + 1, current, remaining =>
    match minByKey (lookScore db remaining current) remaining with
    | none => []
    | some nxt => nxt :: greedyLoop db fuel nxt (remaining.erase nxt)

/-- Method `_intelligent_sequence` (simple_optimizer.py 88-122): start from the
thinnest product, then append greedily with one-step lookahead. -/
def intelligentSequence (db : OptDb) (products : List String) :
    List String × ℚ :=
  match minByKey (thickOf db) products with
  | none => ([], 0)
  | some start =>
    let seq := start :: greedyLoop db products.length start (products.erase start)
    (seq, sequenceCost db seq)

/-- Python `round` ties-to-even on an integer. -/
def roundHalfEven (q : ℚ) : ℤ :=
  if q - ⌊q⌋ < 1 / 2 then ⌊q⌋
  else if 1 / 2 < q - ⌊q⌋ then ⌊q⌋ + 1
  else if 2 ∣ ⌊q⌋ then ⌊q⌋ else ⌊q⌋ + 1

/-- Python `round(x, 2)`. -/
def round2 (q : ℚ) : ℚ :=
  (roundHalfEven (q * 100) : ℚ) / 100

/-- The result of `optimize`, restricted to the fields the claims are
about: the error dictionary `{"error": msg}`, the single-product result
(sequence and cost 0), and the full result's `optimal_sequence` and
`total_transition_cost` (the further report fields — worst case, savings,
transitions, recommendations — are not modelled). -/
inductive OptResult
  | err (msg : String)
  | single (seq : List String) (cost : ℚ)
  | full (seq : Option (List String)) (cost : Option ℚ)
deriving DecidableEq, Repr

/-- Method `SimpleProductionOptimizer.optimize` (simple_optimizer.py 22-73):
empty input is an error; a single product returns immediately with cost
0 (before any validation); then unknown products are a structured error;
then at most 8 products go to the exhaustive search and more to the
greedy heuristic, and the best cost is reported rounded to 2 decimals. -/
def optimize (db : OptDb) (products : List String) : OptResult :=
  if products = [] then .err "No products specified"
  else if products.length = 1 then .single products 0
  else
    let invalid := products.filter (fun p => decide (p ∉ db.profiles.map Prod.fst))
    if invalid ≠ [] then .err ("Unknown products: " ++ String.intercalate ", " invalid)
    else if products.length ≤ 8 then
      let r := exhaustiveSearch db products
      .full r.1 (r.2.map round2)
    else
      let r := intelligentSequence db products
      .full (some r.1) (some (round2 r.2))

/-!
## Transition-cost formula (`build_optimization_database.py` 142-190)
-/

/-- The fields of a product profile that `_calculate_transition_cost`
reads: `thickness_mm`, `type`, `avg_kwh_per_m3` and the per-zone
`zone_profiles[z]["kwh_per_m3"]` (none when the zone is absent from
`zone_profiles`). -/
structure DbProfile where
  thickness : ℚ
  mtype : String
  avgKwh : ℚ
  zoneKwh : Zone → Option ℚ

/-- The per-zone term of the cost (lines 182-188): counted only when the
zone appears in both profiles. -/
def zoneCostTerm (p1 p2 : DbProfile) (z : Zone) : ℚ :=
  match p1.zoneKwh z, p2.zoneKwh z with
  | some a, some b => |a - b| * (2 / 10)
  | _, _ => 0

/-- Method `_calculate_transition_cost` (build_optimization_database.py
162-190): thickness difference at 3 kWh/mm, a 50 kWh penalty when the
material types differ, energy-intensity difference at 0.8, the per-zone
terms at 0.2 over Z2..Z5, rounded to 2 decimals. -/
def calcTransitionCost (p1 p2 : DbProfile) : ℚ :=
  round2 (|p1.thickness - p2.thickness| * 3 +
    (if p1.mtype ≠ p2.mtype then 50 else 0) +
    |p1.avgKwh - p2.avgKwh| * (8 / 10) +
    ([Z2, Z3, Z4, Z5].map (zoneCostTerm p1 p2)).sum)

/-- One entry of `calculate_transition_matrix` (lines 142-160): 0 on the
diagonal, otherwise the computed transition cost of the two profiles. -/
def transitionMatrixCost (profileOf : String → DbProfile) (a b : String) : ℚ :=
  if a = b then 0 else calcTransitionCost (profileOf a) (profileOf b)

/-!
## Claim-side formulations, for the refinement-style comparisons

These definitions follow the wording of the specification (or of a
claim), to be compared with the source-derived definitions above.
-/

/-- One step of the interval builder as the amended description states
it: entry is the recorded timestamp if present, otherwise the end of the
previously emitted interval, otherwise — when no interval has been
emitted yet — the dryer-start time; an interval is emitted only when
entry and exit are both known and exit strictly follows entry; only an
emission advances the fallback pointer. -/
def specStep (row : WagonRow) (st : List (Zone × ℚ × ℚ) × Option ℚ) (z : Zone) :
    List (Zone × ℚ × ℚ) × Option ℚ :=
  let entry : Option ℚ := ((row.zoneEntry z).or st.2).or row.t0
  match entry, row.zoneDur z with
  | some tin, some dur =>
    if tin < tin + dur then (st.1 ++ [(z, tin, tin + dur)], some (tin + dur))
    else st
  | _, _ => st

/-- The interval builder as the amended claim describes it: a fold of
`specStep` over the fixed zone order, starting with nothing emitted. -/
def buildIntervalsSpec (row : WagonRow) : List (Zone × ℚ × ℚ) :=
  (zonesSeq.foldl (specStep row) ([], none)).1

/-- One step of the interval builder as claim C8 literally states it:
the dryer-start fallback is available "only for the first zone". -/
def claimStep (row : WagonRow) (st : List (Zone × ℚ × ℚ) × Option ℚ) (z : Zone) :
    List (Zone × ℚ × ℚ) × Option ℚ :=
  let entry : Option ℚ :=
    ((row.zoneEntry z).or st.2).or (if z = Z1 then row.t0 else none)
  match entry, row.zoneDur z with
  | some tin, some dur =>
    if tin < tin + dur then (st.1 ++ [(z, tin, tin + dur)], some (tin + dur))
    else st
  | _, _ => st

/-- The interval builder exactly as claim C8 words it. -/
def buildIntervalsClaim (row : WagonRow) : List (Zone × ℚ × ℚ) :=
  (zonesSeq.foldl (claimStep row) ([], none)).1

/-- The reading filter as claim C3 words it: the zone's value is present
and non-zero (the source's filter demands it strictly positive). -/
def nonzeroEnergy (z : Zone) (e : EnergyReading) : Bool :=
  match e.energy z with
  | some v => decide (v ≠ 0)
  | none => false

/-- The allocator as the specification and claim C3 word it, with a
reading filter given by a parameter: for each zone independently, pair
the selected readings with the zone's intervals and emit a record exactly
when the overlap is positive, with share = zone energy × overlap. -/
def allocateBySpec (sel : Zone → EnergyReading → Bool)
    (es : List EnergyReading) (ivs : List IntervalRow) : List AllocRow :=
  mappedZones.flatMap (fun z =>
    (es.filter (sel z)).flatMap (fun e =>
      (ivs.filter (fun iv => decide (iv.zone = z))).filterMap (fun iv =>
        if 0 < overlapHours e iv then
          some { month := e.month
                 produkt := iv.produkt
                 m3 := iv.m3
                 energyShare := ((e.energy z).getD 0) * overlapHours e iv
                 overlapH := overlapHours e iv
                 zone := z }
        else none)))

/-!
## Concrete inputs used by counterexamples and witnesses
-/

/-- A wagon row whose recorded Z2 entry (hour 1) lies inside the Z1
interval [0, 10) built from `t0 = 0` and a 10-hour Z1 duration. -/
def overlapRow : WagonRow where
  t0 := some 0
  zoneEntry := fun z => match z with | Z2 => some 1 | _ => none
  zoneDur := fun z => match z with | Z1 => some 10 | Z2 => some 2 | _ => none

/-- A wagon row with no recorded zone entries (as `parse_wagon` output
rows always are) and durations for Z1 and Z2. -/
def chainRow : WagonRow where
  t0 := some 0
  zoneEntry := fun _ => none
  zoneDur := fun z => match z with | Z1 => some 2 | Z2 => some 3 | _ => none

/-- A wagon row whose Z1 leg is dropped (no duration) and whose Z2 has a
duration but no recorded entry: the code then enters Z2 at `t0`. -/
def skipRow : WagonRow where
  t0 := some 0
  zoneEntry := fun _ => none
  zoneDur := fun z => match z with | Z2 => some 2 | _ => none

/-- The 40 kWh Z3 reading for the 10:00-11:00 window of the
additive-allocation scenario. -/
def scenarioReading : EnergyReading where
  eStart := 10
  eEnd := 11
  month := 1
  energy := fun z => match z with | Z3 => some 40 | _ => none

/-- Scenario wagon 1: in Z3 for the whole 10:00-11:00 hour. -/
def scenarioWagon1 : IntervalRow where
  produkt := "W1"
  m3 := some 1
  zone := Z3
  pStart := 10
  pEnd := 11
  month := 1

/-- Scenario wagon 2: in Z3 from 10:30 to 11:00. -/
def scenarioWagon2 : IntervalRow where
  produkt := "W2"
  m3 := some 1
  zone := Z3
  pStart := 21 / 2
  pEnd := 11
  month := 1

/-- A reading whose Z2 value is negative (present and non-zero, but not
strictly positive). -/
def negativeReading : EnergyReading where
  eStart := 0
  eEnd := 1
  month := 1
  energy := fun z => match z with | Z2 => some (-1) | _ => none

/-- A Z2 interval covering the negative reading's whole window. -/
def negativeRowInterval : IntervalRow where
  produkt := "P"
  m3 := some 1
  zone := Z2
  pStart := 0
  pEnd := 1
  month := 1

/-- A one-hour reading with no energy values, for the overlap-bounds
witness. -/
def witnessReading : EnergyReading where
  eStart := 0
  eEnd := 1
  month := 1
  energy := fun _ => none

/-- An interval disjoint from `witnessReading`'s window. -/
def witnessInterval : IntervalRow where
  produkt := "P"
  m3 := none
  zone := Z2
  pStart := 2
  pEnd := 3
  month := 1

/-- A two-product database used by optimizer witnesses. -/
def witnessDb : OptDb where
  profiles := [("A", 1), ("B", 2)]
  trans := fun _ _ => 0

/-- An allocation row with volume, for the aggregation witness. -/
def witnessAlloc : AllocRow where
  month := 1
  produkt := "P"
  m3 := some 2
  energyShare := 10
  overlapH := 1
  zone := Z2

end DryerKPI

namespace DryerKPI

/-!
## Theorems

Helper lemmas first, then one theorem per claim (with its counterexample
and witness where required).
-/

open Zone

/-- The zones of the emitted intervals form a subsequence of the zone
list being iterated. -/
theorem buildIntervalsAux_sublist (row : WagonRow) :
    ∀ (zs : List Zone) (p : Option ℚ),
      ((buildIntervalsAux row zs p).map Prod.fst).Sublist zs
  | [], _ => by simp [buildIntervalsAux]
  | z :: rest, p => by
    simp only [buildIntervalsAux]
    rcases hE : entryTime row z p with _ | tin
    · exact (buildIntervalsAux_sublist row rest p).cons z
    · rcases hD : row.zoneDur z with _ | dur
      · exact (buildIntervalsAux_sublist row rest p).cons z
      · by_cases hlt : tin < tin + dur
        · simp only [if_pos hlt, List.map_cons]
          exact (buildIntervalsAux_sublist row rest (some (tin + dur))).cons₂ z
        · simp only [if_neg hlt]
          exact (buildIntervalsAux_sublist row rest p).cons z

/-- Every emitted interval has strictly positive duration. -/
theorem buildIntervalsAux_pos (row : WagonRow) :
    ∀ (zs : List Zone) (p : Option ℚ) (iv : Zone × ℚ × ℚ),
      iv ∈ buildIntervalsAux row zs p → iv.2.1 < iv.2.2
  | [], _, iv, h => by simp [buildIntervalsAux] at h
  | z :: rest, p, iv, h => by
    simp only [buildIntervalsAux] at h
    split at h
    · split at h
      · rename_i hlt
        rcases List.mem_cons.mp h with hiv | hiv
        · subst hiv; exact hlt
        · exact buildIntervalsAux_pos row rest _ iv hiv
      · exact buildIntervalsAux_pos row rest p iv h
    · exact buildIntervalsAux_pos row rest p iv h
    · exact buildIntervalsAux_pos row rest p iv h

/-- When the row carries no recorded zone entry timestamps, the emitted
intervals chain from the carried previous end. -/
theorem buildIntervalsAux_chained (row : WagonRow)
    (hrec : ∀ z, row.zoneEntry z = none) :
    ∀ (zs : List Zone) (p : Option ℚ),
      chainedFrom p (buildIntervalsAux row zs p)
  | [], p => by cases p <;> trivial
  | z :: rest, none => by
    rcases hT : row.t0 with _ | t
    · have hE : entryTime row z none = none := by simp [entryTime, hrec z, hT]
      simp only [buildIntervalsAux, hE]
      exact buildIntervalsAux_chained row hrec rest none
    · have hE : entryTime row z none = some t := by simp [entryTime, hrec z, hT]
      rcases hD : row.zoneDur z with _ | dur
      · simp only [buildIntervalsAux, hE, hD]
        exact buildIntervalsAux_chained row hrec rest none
      · simp only [buildIntervalsAux, hE, hD]
        by_cases hlt : t < t + dur
        · rw [if_pos hlt]
          exact buildIntervalsAux_chained row hrec rest (some (t + dur))
        · rw [if_neg hlt]
          exact buildIntervalsAux_chained row hrec rest none
  | z :: rest, some q => by
    have hE : entryTime row z (some q) = some q := by simp [entryTime, hrec z]
    rcases hD : row.zoneDur z with _ | dur
    · simp only [buildIntervalsAux, hE, hD]
      exact buildIntervalsAux_chained row hrec rest (some q)
    · simp only [buildIntervalsAux, hE, hD]
      by_cases hlt : q < q + dur
      · rw [if_pos hlt]
        exact ⟨le_refl q, buildIntervalsAux_chained row hrec rest (some (q + dur))⟩
      · rw [if_neg hlt]
        exact buildIntervalsAux_chained row hrec rest (some q)

/-- A chained interval list is non-overlapping. -/
theorem nonOverlapping_of_chainedFrom :
    ∀ (l : List (Zone × ℚ × ℚ)) (p : Option ℚ),
      chainedFrom p l → nonOverlapping l = true
  | [], _, _ => rfl
  | [_], _, _ => rfl
  | a :: b :: rest, p, h => by
    have htail : chainedFrom (some a.2.2) (b :: rest) := by
      rcases p with _ | q
      · exact h
      · exact h.2
    have hle : a.2.2 ≤ b.2.1 := htail.1
    simp only [nonOverlapping, Bool.and_eq_true, decide_eq_true_eq]
    exact ⟨hle, nonOverlapping_of_chainedFrom (b :: rest) (some a.2.2) htail⟩

/-- C1 (amended).  For every wagon record, the intervals returned by
`build_intervals` are ordered by the fixed zone sequence Z1..Z5 (their
zones form a subsequence of it) and every emitted interval has strictly
positive duration; and whenever the record carries no recorded zone
entry timestamps — as every row returned by `parse_wagon` does — no two
intervals overlap: each starts no earlier than the end of the previously
emitted one.  (With a recorded entry timestamp the non-overlap part can
fail; see the counterexample.) -/
theorem build_intervals_ordered_positive_chained (row : WagonRow) :
    ((buildIntervals row).map Prod.fst).Sublist zonesSeq ∧
    allPositive (buildIntervals row) = true ∧
    ((∀ z, row.zoneEntry z = none) → nonOverlapping (buildIntervals row) = true) := by
  refine ⟨buildIntervalsAux_sublist row zonesSeq none, ?_, fun hrec => ?_⟩
  · simp only [allPositive, List.all_eq_true, decide_eq_true_eq]
    exact fun iv hiv => buildIntervalsAux_pos row zonesSeq none iv hiv
  · exact nonOverlapping_of_chainedFrom _ none
      (buildIntervalsAux_chained row hrec zonesSeq none)

/-- C1 counterexample.  On `overlapRow` — whose recorded Z2 entry lies
strictly inside the Z1 interval — `build_intervals` emits
[0,10) for Z1 and [1,3) for Z2: ordered and positive, but overlapping,
so the claim's non-overlap part is false as stated. -/
theorem build_intervals_overlap_cex :
    buildIntervals overlapRow = [(Zone.Z1, 0, 10), (Zone.Z2, 1, 3)] ∧
    allPositive (buildIntervals overlapRow) = true ∧
    nonOverlapping (buildIntervals overlapRow) = false := by
  have h : buildIntervals overlapRow = [(Zone.Z1, 0, 10), (Zone.Z2, 1, 3)] := by
    norm_num [buildIntervals, buildIntervalsAux, entryTime, overlapRow, zonesSeq]
  rw [h]
  norm_num [allPositive, nonOverlapping]

/-- Witness for C1: the theorem applied to a concrete record with no
recorded entry timestamps. -/
theorem build_intervals_ordered_positive_chained_witness :
    ((buildIntervals chainRow).map Prod.fst).Sublist zonesSeq ∧
    allPositive (buildIntervals chainRow) = true ∧
    nonOverlapping (buildIntervals chainRow) = true :=
  ⟨(build_intervals_ordered_positive_chained chainRow).1,
   (build_intervals_ordered_positive_chained chainRow).2.1,
   (build_intervals_ordered_positive_chained chainRow).2.2 (fun _ => rfl)⟩

/-- Reading a dropped column through `rowGet` gives `none`. -/
theorem rowGet_dropCols_of_mem (r : Row) (cs : List String) (c : String)
    (hc : c ∈ cs) : rowGet (dropCols r cs) c = none := by
  have h : (dropCols r cs).find? (fun p => decide (p.1 = c)) = none := by
    rw [List.find?_eq_none]
    intro x hx hbeq
    rcases List.mem_filter.mp hx with ⟨-, hkeep⟩
    have hxc : x.1 = c := of_decide_eq_true hbeq
    have : ¬ (x.1 ∈ cs) := by simpa using hkeep
    exact this (hxc ▸ hc)
  simp [rowGet, h]

/-- A record with no known zone durations yields no intervals at all. -/
theorem buildIntervalsAux_no_dur (row : WagonRow)
    (h : ∀ z, row.zoneDur z = none) :
    ∀ (zs : List Zone) (p : Option ℚ), buildIntervalsAux row zs p = []
  | [], _ => rfl
  | z :: rest, p => by
    simp only [buildIntervalsAux, h z]
    rcases hE : entryTime row z p with _ | tin
    · exact buildIntervalsAux_no_dur row h rest p
    · exact buildIntervalsAux_no_dur row h rest p

/-- After `parse_wagon`'s final column drop, every `{zone}_dur` read by
`build_intervals` is missing. -/
theorem parseWagonDrop_no_dur (r : Row) (z : Zone) :
    (rowToWagon (parseWagonDrop r)).zoneDur z = none := by
  have hc : zoneDurCol z ∈ colsToDrop := by cases z <;> decide
  exact rowGet_dropCols_of_mem r colsToDrop (zoneDurCol z) hc

/-- A row that went through `parse_wagon`'s final drop yields no
intervals. -/
theorem buildIntervalsRow_parseWagonDrop (r : Row) :
    buildIntervalsRow (parseWagonDrop r) = [] :=
  buildIntervalsAux_no_dur _ (parseWagonDrop_no_dur r) zonesSeq none

/-- C2.  For every dataframe whose rows passed through `parse_wagon`'s
final column drop (which removes every `Z*_in` and every `Z*_dur`
column), `explode_intervals` produces zero intervals: `build_intervals`
reads a missing duration for each zone, so no zone ever has a known exit
time and nothing is emitted. -/
theorem explode_intervals_after_parse_wagon_empty (df : List Row) :
    explodeIntervals (df.map parseWagonDrop) = [] := by
  induction df with
  | nil => rfl
  | cons r rest ih =>
    simp only [List.map_cons, explodeIntervals, List.flatMap_cons,
      buildIntervalsRow_parseWagonDrop, List.map_nil, List.nil_append]
    simpa [explodeIntervals] using ih

/-- The `Option.or` chain agrees with the source's entry-time fallback. -/
theorem entryTime_eq_or (row : WagonRow) (z : Zone) (p : Option ℚ) :
    entryTime row z p = ((row.zoneEntry z).or p).or row.t0 := by
  cases h : row.zoneEntry z <;> cases p <;> simp [entryTime, h]

/-- The folded spec-side builder equals the source loop, for any
accumulated output and carried pointer. -/
theorem foldl_specStep (row : WagonRow) :
    ∀ (zs : List Zone) (acc : List (Zone × ℚ × ℚ)) (p : Option ℚ),
      (zs.foldl (specStep row) (acc, p)).1 = acc ++ buildIntervalsAux row zs p
  | [], acc, p => by simp [buildIntervalsAux]
  | z :: zs, acc, p => by
    rw [List.foldl_cons]
    have hor : ((row.zoneEntry z).or p).or row.t0 = entryTime row z p :=
      (entryTime_eq_or row z p).symm
    rcases hE : entryTime row z p with _ | tin
    · rw [hE] at hor
      have hs : specStep row (acc, p) z = (acc, p) := by
        simp only [specStep, hor]
      rw [hs]
      simp only [buildIntervalsAux, hE]
      exact foldl_specStep row zs acc p
    · rw [hE] at hor
      rcases hD : row.zoneDur z with _ | dur
      · have hs : specStep row (acc, p) z = (acc, p) := by
          simp only [specStep, hor, hD]
        rw [hs]
        simp only [buildIntervalsAux, hE, hD]
        exact foldl_specStep row zs acc p
      · by_cases hlt : tin < tin + dur
        · have hs : specStep row (acc, p) z =
              (acc ++ [(z, tin, tin + dur)], some (tin + dur)) := by
            simp only [specStep, hor, hD, if_pos hlt]
          rw [hs]
          simp only [buildIntervalsAux, hE, hD, if_pos hlt]
          rw [foldl_specStep row zs (acc ++ [(z, tin, tin + dur)]) (some (tin + dur)),
            List.append_assoc, List.singleton_append]
        · have hs : specStep row (acc, p) z = (acc, p) := by
            simp only [specStep, hor, hD, if_neg hlt]
          rw [hs]
          simp only [buildIntervalsAux, hE, hD, if_neg hlt]
          exact foldl_specStep row zs acc p

/-- C8 (amended).  `build_intervals` refines the declarative
description: iterate zones in the fixed order Z1..Z5; entry is the
recorded timestamp when present, otherwise the end of the previously
emitted interval, otherwise — whenever no interval has been emitted yet
(not only for the first zone) — the wagon's dryer-start time; exit is
entry plus duration when both are known; an interval is emitted only
when entry and exit are known and exit strictly follows entry; and only
an emission advances the fallback pointer. -/
theorem build_intervals_refines_spec (row : WagonRow) :
    buildIntervals row = buildIntervalsSpec row := by
  rw [buildIntervals, buildIntervalsSpec, foldl_specStep row zonesSeq [] none,
    List.nil_append]

/-- C8 counterexample.  On `skipRow` the Z1 leg is dropped and Z2 has no
recorded entry, yet the code emits a Z2 interval entered at the
dryer-start time; under the claim's words — dryer-start fallback "only
for the first zone" — Z2 would have no known entry and nothing would be
emitted. -/
theorem build_intervals_t0_fallback_cex :
    buildIntervals skipRow = [(Zone.Z2, 0, 2)] ∧
    buildIntervalsClaim skipRow = [] := by
  constructor
  · norm_num [buildIntervals, buildIntervalsAux, entryTime, skipRow, zonesSeq]
  · simp only [buildIntervalsClaim, zonesSeq, List.foldl_cons, List.foldl_nil]
    simp [claimStep, skipRow, Option.or]

/-- A `filterMap` with an if-some-else-none body is a filter followed by a
map. -/
theorem filterMap_ite {α β : Type} (p : α → Prop) [DecidablePred p] (f : α → β) :
    ∀ l : List α,
      l.filterMap (fun a => if p a then some (f a) else none) =
      (l.filter (fun a => decide (p a))).map f
  | [] => rfl
  | a :: l => by
    by_cases h : p a
    · simp [List.filterMap_cons, List.filter_cons, h, filterMap_ite p f l]
    · simp [List.filterMap_cons, List.filter_cons, h, filterMap_ite p f l]

/-- A strictly positive clipped overlap forces the two ranges to overlap
strictly. -/
theorem overlap_pos_strict (e : EnergyReading) (iv : IntervalRow)
    (h : 0 < overlapHours e iv) : e.eStart < iv.pEnd ∧ iv.pStart < e.eEnd := by
  simp only [overlapHours] at h
  have ht : (0 : ℚ) < min e.eEnd iv.pEnd - max e.eStart iv.pStart := by
    rcases lt_max_iff.mp h with h0 | h1
    · exact absurd h0 (lt_irrefl 0)
    · exact h1
  have h2 : max e.eStart iv.pStart < min e.eEnd iv.pEnd := sub_pos.mp ht
  constructor
  · exact lt_of_le_of_lt (le_max_left _ _) (lt_of_lt_of_le h2 (min_le_right _ _))
  · exact lt_of_le_of_lt (le_max_right _ _) (lt_of_lt_of_le h2 (min_le_left _ _))

/-- The zone loop of `allocate_energy` produces exactly the pairs with
positive overlap, in specification form. -/
theorem allocateZone_eq_spec (z : Zone) (es : List EnergyReading)
    (ivs : List IntervalRow) :
    allocateZone z es ivs =
      (es.filter (posEnergy z)).flatMap (fun e =>
        (ivs.filter (fun iv => decide (iv.zone = z))).filterMap (fun iv =>
          if 0 < overlapHours e iv then
            some { month := e.month
                   produkt := iv.produkt
                   m3 := iv.m3
                   energyShare := ((e.energy z).getD 0) * overlapHours e iv
                   overlapH := overlapHours e iv
                   zone := z }
          else none)) := by
  simp only [allocateZone]
  rw [List.filter_filter]
  have hpred : (fun pr : EnergyReading × IntervalRow =>
      decide (0 < overlapHours pr.1 pr.2) &&
        (decide (pr.1.eStart < pr.2.pEnd) && decide (pr.2.pStart < pr.1.eEnd))) =
      (fun pr => decide (0 < overlapHours pr.1 pr.2)) := by
    funext pr
    by_cases h : 0 < overlapHours pr.1 pr.2
    · rcases overlap_pos_strict pr.1 pr.2 h with ⟨h1, h2⟩
      simp [h, h1, h2]
    · simp [h]
  rw [hpred]
  rw [List.filter_flatMap, List.map_flatMap]
  congr 1
  funext e
  rw [List.filter_map, List.map_map, filterMap_ite (fun iv => 0 < overlapHours e iv)]
  rfl

/-- C3 (amended).  `allocate_energy` processes each energy-mapped zone
independently: it pairs exactly the readings whose value for that zone
is present and strictly positive (not merely non-zero, as the claim
words it) with exactly that zone's intervals, and emits one record per
pair exactly when the clipped overlap is positive, with
`energy_share_kWh` equal to the reading's zone energy times the overlap
in hours. -/
theorem allocate_energy_eq_spec (es : List EnergyReading)
    (ivs : List IntervalRow) :
    allocateEnergy es ivs = allocateBySpec posEnergy es ivs := by
  simp only [allocateEnergy, allocateBySpec]
  congr 1
  funext z
  exact allocateZone_eq_spec z es ivs

/-- C3 counterexample.  A reading whose Z2 value is −1 (present and
non-zero) over an interval covering its whole window: the code allocates
nothing, while the claim's "present and non-zero" selection would emit a
record with share −1. -/
theorem allocate_energy_nonzero_cex :
    allocateEnergy [negativeReading] [negativeRowInterval] = [] ∧
    allocateBySpec nonzeroEnergy [negativeReading] [negativeRowInterval] =
      [{ month := 1, produkt := "P", m3 := some 1, energyShare := -1,
         overlapH := 1, zone := Zone.Z2 }] := by
  constructor
  · norm_num [allocateEnergy, allocateZone, mappedZones, posEnergy,
      negativeReading, negativeRowInterval]
  · norm_num [allocateBySpec, nonzeroEnergy, mappedZones, negativeReading,
      negativeRowInterval, overlapHours, min_def, max_def,
      List.filterMap_cons, List.filterMap_nil]

/-- C4.  For a reading whose window is exactly one hour and an interval
with positive duration, the clipped overlap lies in [0, 1] and vanishes
exactly when the two ranges are disjoint or touch only at a boundary. -/
theorem overlap_unit_window_bounds (e : EnergyReading) (iv : IntervalRow)
    (hwin : e.eEnd = e.eStart + 1) (hiv : iv.pStart < iv.pEnd) :
    0 ≤ overlapHours e iv ∧ overlapHours e iv ≤ 1 ∧
      (overlapHours e iv = 0 ↔ iv.pEnd ≤ e.eStart ∨ e.eEnd ≤ iv.pStart) := by
  simp only [overlapHours, hwin]
  refine ⟨le_max_left 0 _, ?_, ?_⟩
  · refine max_le (by norm_num) ?_
    have h1 := min_le_left (e.eStart + 1) iv.pEnd
    have h2 := le_max_left e.eStart iv.pStart
    linarith
  · rw [max_eq_left_iff, sub_nonpos]
    constructor
    · intro ht
      rcases max_cases e.eStart iv.pStart with ⟨hmax, hcs⟩ | ⟨hmax, hcs⟩ <;>
        rcases min_cases (e.eStart + 1) iv.pEnd with ⟨hmin, hd⟩ | ⟨hmin, hd⟩ <;>
          rw [hmin, hmax] at ht
      · exact absurd ht (by linarith)
      · left; linarith
      · right; linarith
      · exact absurd hiv (by linarith)
    · intro h
      rcases h with h | h
      · calc min (e.eStart + 1) iv.pEnd ≤ iv.pEnd := min_le_right _ _
          _ ≤ e.eStart := h
          _ ≤ max e.eStart iv.pStart := le_max_left _ _
      · calc min (e.eStart + 1) iv.pEnd ≤ e.eStart + 1 := min_le_left _ _
          _ ≤ iv.pStart := h
          _ ≤ max e.eStart iv.pStart := le_max_right _ _

/-- Witness for C4: the theorem applied to a one-hour reading and a
disjoint later interval, where the overlap is 0. -/
theorem overlap_unit_window_bounds_witness :
    0 ≤ overlapHours witnessReading witnessInterval ∧
    overlapHours witnessReading witnessInterval ≤ 1 ∧
      (overlapHours witnessReading witnessInterval = 0 ↔
        witnessInterval.pEnd ≤ witnessReading.eStart ∨
          witnessReading.eEnd ≤ witnessInterval.pStart) :=
  overlap_unit_window_bounds witnessReading witnessInterval
    (by norm_num [witnessReading]) (by norm_num [witnessInterval])

/-- C5.  The additive-allocation scenario: one 40 kWh Z3 reading for
10:00-11:00 and two wagons in Z3 for the whole hour and for its second
half produce exactly two records, with overlaps 1 and 1/2 and shares 40
and 20 — the 60 kWh total allocated exceeds the 40 kWh metered, so no
normalization across concurrent wagons is applied. -/
theorem additive_allocation_scenario :
    allocateEnergy [scenarioReading] [scenarioWagon1, scenarioWagon2] =
      [{ month := 1, produkt := "W1", m3 := some 1, energyShare := 40,
         overlapH := 1, zone := Zone.Z3 },
       { month := 1, produkt := "W2", m3 := some 1, energyShare := 20,
         overlapH := 1 / 2, zone := Zone.Z3 }] ∧
    (40 : ℚ) + 20 = 60 ∧ (40 : ℚ) < 40 + 20 := by
  refine ⟨?_, by norm_num, by norm_num⟩
  norm_num [allocateEnergy, allocateZone, mappedZones, posEnergy,
    scenarioReading, scenarioWagon1, scenarioWagon2, overlapHours,
    min_def, max_def]

/-- The exhaustive-search fold, seeded with a candidate, returns a
minimum over the candidate and everything folded over. -/
theorem foldl_searchStep_min (db : OptDb) :
    ∀ (perms : List (List String)) (s : List String),
      ∃ t, perms.foldl (searchStep db) (some s, some (sequenceCost db s)) =
          (some t, some (sequenceCost db t)) ∧
        (t = s ∨ t ∈ perms) ∧ sequenceCost db t ≤ sequenceCost db s ∧
        ∀ q ∈ perms, sequenceCost db t ≤ sequenceCost db q
  | [], s => ⟨s, rfl, Or.inl rfl, le_refl _, by simp⟩
  | q :: perms, s => by
    rw [List.foldl_cons]
    by_cases hlt : sequenceCost db q < sequenceCost db s
    · have hstep : searchStep db (some s, some (sequenceCost db s)) q =
          (some q, some (sequenceCost db q)) := by
        simp only [searchStep]
        rw [if_pos hlt]
      rw [hstep]
      obtain ⟨t, h1, h2, h3, h4⟩ := foldl_searchStep_min db perms q
      refine ⟨t, h1, ?_, le_of_lt (lt_of_le_of_lt h3 hlt), ?_⟩
      · rcases h2 with h | h
        · exact Or.inr (h ▸ List.mem_cons_self q perms)
        · exact Or.inr (List.mem_cons_of_mem q h)
      · intro r hr
        rcases List.mem_cons.mp hr with h | h
        · exact h ▸ h3
        · exact h4 r h
    · have hstep : searchStep db (some s, some (sequenceCost db s)) q =
          (some s, some (sequenceCost db s)) := by
        simp only [searchStep]
        rw [if_neg hlt]
      rw [hstep]
      obtain ⟨t, h1, h2, h3, h4⟩ := foldl_searchStep_min db perms s
      refine ⟨t, h1, ?_, h3, ?_⟩
      · rcases h2 with h | h
        · exact Or.inl h
        · exact Or.inr (List.mem_cons_of_mem q h)
      · intro r hr
        rcases List.mem_cons.mp hr with h | h
        · subst h; exact le_trans h3 (le_of_not_lt hlt)
        · exact h4 r h

/-- Method `_exhaustive_search` on a nonempty product list returns a
permutation of minimal sequence cost together with that cost. -/
theorem exhaustiveSearch_min (db : OptDb) (products : List String)
    (hne : products ≠ []) :
    ∃ t, exhaustiveSearch db products = (some t, some (sequenceCost db t)) ∧
      t.Perm products ∧
      ∀ q : List String, q.Perm products → sequenceCost db t ≤ sequenceCost db q := by
  rcases hp : products.permutations with _ | ⟨q0, rest⟩
  · exfalso
    have hmem : products ∈ products.permutations :=
      List.mem_permutations.mpr (List.Perm.refl _)
    rw [hp] at hmem
    exact absurd hmem (List.not_mem_nil _)
  · rw [exhaustiveSearch, hp, List.foldl_cons]
    have hstep : searchStep db (none, none) q0 =
        (some q0, some (sequenceCost db q0)) := rfl
    rw [hstep]
    obtain ⟨t, h1, h2, h3, h4⟩ := foldl_searchStep_min db rest q0
    refine ⟨t, h1, ?_, ?_⟩
    · have ht : t ∈ products.permutations := by
        rw [hp]
        rcases h2 with h | h
        · exact h ▸ List.mem_cons_self _ _
        · exact List.mem_cons_of_mem _ h
      exact List.mem_permutations.mp ht
    · intro q hq
      have hqmem : q ∈ products.permutations := List.mem_permutations.mpr hq
      rw [hp] at hqmem
      rcases List.mem_cons.mp hqmem with h | h
      · exact h ▸ h3
      · exact h4 q h

/-- C6.  For every list of 2 to 8 distinct products all present in the
profile table, `optimize` runs the exhaustive search: the returned
sequence is a permutation of the input whose total transition cost is
less than or equal to the total cost of every permutation (the reported
cost field is that minimum, rounded to two decimals as the source
does). -/
theorem optimize_small_exhaustive_optimal (db : OptDb) (products : List String)
    (h2 : 2 ≤ products.length) (h8 : products.length ≤ 8)
    (hnd : products.Nodup)
    (hmem : ∀ p ∈ products, p ∈ db.profiles.map Prod.fst) :
    ∃ seq, optimize db products =
        .full (some seq) (some (round2 (sequenceCost db seq))) ∧
      seq.Perm products ∧
      ∀ q : List String, q.Perm products → sequenceCost db seq ≤ sequenceCost db q := by
  have hne : products ≠ [] := by
    intro h
    rw [h] at h2
    simp at h2
  have hlen1 : products.length ≠ 1 := by omega
  have hinv : products.filter (fun p => decide (p ∉ db.profiles.map Prod.fst)) = [] := by
    rw [List.filter_eq_nil_iff]
    intro a ha
    simp [hmem a ha]
  simp only [optimize]
  rw [if_neg hne, if_neg hlen1, hinv, if_neg (by simp)]
  rw [if_pos h8]
  obtain ⟨t, h1, hperm, hmin⟩ := exhaustiveSearch_min db products hne
  refine ⟨t, ?_, hperm, hmin⟩
  rw [h1]
  rfl

/-- Witness for C6: the theorem applied to two known, distinct
products. -/
theorem optimize_small_exhaustive_optimal_witness :
    ∃ seq, optimize witnessDb ["A", "B"] =
        .full (some seq) (some (round2 (sequenceCost witnessDb seq))) ∧
      seq.Perm ["A", "B"] ∧
      ∀ q : List String, q.Perm ["A", "B"] →
        sequenceCost witnessDb seq ≤ sequenceCost witnessDb q :=
  optimize_small_exhaustive_optimal witnessDb ["A", "B"] (by norm_num)
    (by norm_num) (by decide) (by decide)

/-- C7 counterexample.  A single unknown product returns the
single-product success result before any validation runs — not an error
result, contrary to the claim. -/
theorem optimize_single_unknown_cex :
    optimize witnessDb ["X"] = .single ["X"] 0 ∧
    ∀ msg, optimize witnessDb ["X"] ≠ .err msg := by
  have h : optimize witnessDb ["X"] = .single ["X"] 0 := by
    simp [optimize]
  refine ⟨h, fun msg hmsg => ?_⟩
  rw [h] at hmsg
  exact OptResult.noConfusion hmsg

/-- C7 (amended).  `optimize` on an empty product list returns the
structured "No products specified" error, and on any list of at least
two products containing an identifier missing from the profile table it
returns a structured error result; being a total function, it raises no
exception.  (A single-element list returns before validation, so an
unknown singleton is not an error; see the counterexample.) -/
theorem optimize_error_results (db : OptDb) :
    optimize db [] = .err "No products specified" ∧
    ∀ products : List String, 2 ≤ products.length →
      (∃ p ∈ products, p ∉ db.profiles.map Prod.fst) →
      ∃ msg, optimize db products = .err msg := by
  constructor
  · rfl
  · rintro products h2 ⟨p, hp, hnp⟩
    have hne : products ≠ [] := by
      intro h
      rw [h] at h2
      simp at h2
    have hlen1 : products.length ≠ 1 := by omega
    have hinv : products.filter
        (fun q => decide (q ∉ db.profiles.map Prod.fst)) ≠ [] := by
      intro h
      have := List.filter_eq_nil_iff.mp h p hp
      simp [hnp] at this
    simp only [optimize]
    rw [if_neg hne, if_neg hlen1, if_pos hinv]
    exact ⟨_, rfl⟩

/-- Witness for C7: the theorem applied to the empty list and to a
two-product list with one unknown identifier. -/
theorem optimize_error_results_witness :
    optimize witnessDb [] = .err "No products specified" ∧
    ∃ msg, optimize witnessDb ["A", "X"] = .err msg :=
  ⟨(optimize_error_results witnessDb).1,
   (optimize_error_results witnessDb).2 ["A", "X"] (by norm_num)
     ⟨"X", by decide, by decide⟩⟩

/-- The derived ratio is none exactly on zero volume, and the quotient
otherwise. -/
theorem derivedKpi_props (e v : ℚ) :
    (derivedKpi e v = none ↔ v = 0) ∧ (v ≠ 0 → derivedKpi e v = some (e / v)) := by
  by_cases h : v = 0 <;> simp [derivedKpi, replaceZeroWithNa, h]

/-- C9.  In every row of the monthly summary and of the yearly summary,
`kWh_per_m3` is null exactly when the group's summed volume is zero, and
otherwise equals the summed energy divided by the summed volume; the
aggregation is a total function, so no division-by-zero fault exists. -/
theorem summary_ratio_null_iff_zero_volume (l : List AllocRow)
    (ms : List SummaryRow) :
    (∀ row ∈ monthlySummary l,
      (row.kwhPerM3 = none ↔ row.volumeM3 = 0) ∧
      (row.volumeM3 ≠ 0 → row.kwhPerM3 = some (row.energyKwh / row.volumeM3))) ∧
    (∀ row ∈ yearlySummary ms,
      (row.kwhPerM3 = none ↔ row.volumeM3 = 0) ∧
      (row.volumeM3 ≠ 0 → row.kwhPerM3 = some (row.energyKwh / row.volumeM3))) := by
  constructor
  · intro row hrow
    rcases List.mem_map.mp hrow with ⟨k, -, rfl⟩
    exact derivedKpi_props _ _
  · intro row hrow
    rcases List.mem_map.mp hrow with ⟨k, -, rfl⟩
    exact derivedKpi_props _ _

/-- Witness for C9: the theorem applied to a one-row allocation whose
group has volume 2 and energy 10, giving ratio 5. -/
theorem summary_ratio_null_iff_zero_volume_witness :
    ((SummaryRow.mk 1 "P" Zone.Z2 10 2 (some 5)).kwhPerM3 = none ↔
      (SummaryRow.mk 1 "P" Zone.Z2 10 2 (some 5)).volumeM3 = 0) ∧
    ((SummaryRow.mk 1 "P" Zone.Z2 10 2 (some 5)).volumeM3 ≠ 0 →
      (SummaryRow.mk 1 "P" Zone.Z2 10 2 (some 5)).kwhPerM3 =
        some ((SummaryRow.mk 1 "P" Zone.Z2 10 2 (some 5)).energyKwh /
          (SummaryRow.mk 1 "P" Zone.Z2 10 2 (some 5)).volumeM3)) := by
  apply (summary_ratio_null_iff_zero_volume [witnessAlloc] []).1
  norm_num [monthlySummary, witnessAlloc, derivedKpi, replaceZeroWithNa,
    List.filterMap_cons, List.filterMap_nil, List.sum_cons, List.sum_nil]

/-- The per-zone term of the transition cost is symmetric. -/
theorem zoneCostTerm_comm (p1 p2 : DbProfile) (z : Zone) :
    zoneCostTerm p1 p2 z = zoneCostTerm p2 p1 z := by
  simp only [zoneCostTerm]
  rcases p1.zoneKwh z with _ | a <;> rcases p2.zoneKwh z with _ | b <;>
    simp [abs_sub_comm]

/-- The transition-cost formula is symmetric in its two profiles. -/
theorem calcTransitionCost_comm (p1 p2 : DbProfile) :
    calcTransitionCost p1 p2 = calcTransitionCost p2 p1 := by
  simp only [calcTransitionCost]
  congr 1
  rw [abs_sub_comm p1.thickness, abs_sub_comm p1.avgKwh]
  have hz : [Z2, Z3, Z4, Z5].map (zoneCostTerm p1 p2) =
      [Z2, Z3, Z4, Z5].map (zoneCostTerm p2 p1) :=
    List.map_congr_left (fun z _ => zoneCostTerm_comm p1 p2 z)
  rw [hz]
  by_cases h : p1.mtype = p2.mtype
  · rw [if_neg (not_not_intro h), if_neg (not_not_intro h.symm)]
  · rw [if_pos h, if_pos (Ne.symm h)]

/-- C10.  The transition cost is symmetric: for every two products in
the profile table, cost(A, B) = cost(B, A), since the formula combines
absolute differences and a type-mismatch test. -/
theorem transition_cost_symmetric (profileOf : String → DbProfile)
    (a b : String) :
    transitionMatrixCost profileOf a b = transitionMatrixCost profileOf b a := by
  by_cases h : a = b
  · subst h
    rfl
  · rw [transitionMatrixCost, transitionMatrixCost, if_neg h, if_neg (Ne.symm h)]
    exact calcTransitionCost_comm (profileOf a) (profileOf b)

end DryerKPI
